import Mathlib

/-!
Shallow embedding of snapcast's stream server (src/server/streamServer.cpp):
the chunk fan-out over the session roster, the JSON-RPC control dispatcher,
the binary client-message dispatcher, and the lock profile of the handlers.
Interfaces that live outside src/ (jsonrpc.h, config.h, controlServer) are
modelled from the specification where noted.
-/

/-- `struct timeval`: seconds and microseconds (sender / receiver timestamps). -/
structure Tv where
  sec : Int
  usec : Int
  deriving DecidableEq, Repr

/-- Per-client volume as stored in the config: percent and muted flag. -/
structure Volume where
  percent : Int
  muted : Bool
  deriving DecidableEq, Repr

/-- A ClientInfo record of the Config store: identity plus mutable settings. -/
structure ClientInfo where
  mac : String
  ipAddress : String
  hostName : String
  version : String
  name : String
  connected : Bool
  lastSeen : Tv
  volume : Volume
  latency : Int
  deriving DecidableEq, Repr

/-- The Config store: the list of known ClientInfo records, keyed by MAC. -/
abbrev Config := List ClientInfo

/-- Look a ClientInfo up by MAC (first match). -/
def findClientInfo (cfg : Config) (mac : String) : Option ClientInfo :=
  cfg.find? (fun c => c.mac == mac)

/-- Modelled from the spec: the fresh record `Config::getClientInfo` creates for an
unknown MAC (config.h is not under src/). Field defaults other than the MAC are
not observed by any claim. -/
def defaultClientInfo (mac : String) : ClientInfo :=
  { mac := mac, ipAddress := "", hostName := "", version := "", name := "",
    connected := false, lastSeen := { sec := 0, usec := 0 },
    volume := { percent := 100, muted := false }, latency := 0 }

/-- Modelled from the spec: `Config::getClientInfo(mac, create)` (config.h is not
under src/): look the record up; when absent and `create` is true, create a fresh
record, store it and return it; when absent and `create` is false return null. -/
def getClientInfo (cfg : Config) (mac : String) (create : Bool) :
    Option ClientInfo × Config :=
  match findClientInfo cfg mac with
  | some c => (some c, cfg)
  | none =>
    if create then (some (defaultClientInfo mac), cfg ++ [defaultClientInfo mac])
    else (none, cfg)

/-- Write a ClientInfo back into the store (the C++ mutates the record through a
shared pointer owned by the store; here every entry with the same MAC is replaced). -/
def updateClientInfo (cfg : Config) (ci : ClientInfo) : Config :=
  cfg.map (fun c => if c.mac == ci.mac then ci else c)

/-- A client session as the coordinator observes it: the MAC bound by Hello
(empty before Hello) and the value of `active()`. -/
structure ClientSession where
  macAddress : String
  isActive : Bool
  deriving DecidableEq, Repr

/-- Result of one `StreamServer::send` broadcast, `α` being the chunk type:
the roster after the sweep, the sessions handed to a detached `stop()` thread,
the control-plane messages emitted, and the `add` invocations performed. -/
structure SendResult (α : Type) where
  roster : List ClientSession
  stopped : List ClientSession
  controlMsgs : List String
  addedTo : List (ClientSession × α)
  deriving DecidableEq, Repr

/-- The sweep loop of `StreamServer::send` (streamServer.cpp lines 48-62): walk the
roster; an inactive session is removed, queued for a detached `stop()`, and a
"Client gone: <mac>" control message is sent; an active session is kept.
Returns (surviving roster, stopped sessions, control messages). -/
def sweepSessions : List ClientSession → List ClientSession × List ClientSession × List String
  | [] => ([], [], [])
  | s :: rest =>
    let r := sweepSessions rest
    if s.isActive then (s :: r.1, r.2.1, r.2.2)
    else (r.1, s :: r.2.1, ("Client gone: " ++ s.macAddress) :: r.2.2)

/-- `StreamServer::send` (streamServer.cpp lines 45-67): sweep the roster under the
lock, then wrap the message in one shared immutable reference and call `add` with
that same reference on every surviving session. -/
def StreamServer.send {α : Type} (chunk : α) (sessions : List ClientSession) :
    SendResult α :=
  let r := sweepSessions sessions
  { roster := r.1, stopped := r.2.1, controlMsgs := r.2.2,
    addedTo := r.1.map (fun s => (s, chunk)) }

/-- `StreamServer::onChunkRead` (streamServer.cpp lines 70-74): forwards the chunk
to `send`; the advisory duration is unused. -/
def StreamServer.onChunkRead {α : Type} (chunk : α) (sessions : List ClientSession) :
    SendResult α :=
  StreamServer.send chunk sessions

/-- JSON-RPC error objects thrown by the control dispatcher (codes per
JSON-RPC 2.0; the exception classes live in jsonrpc.h, outside src/, and are
modelled from the spec). Each carries the id of the offending request. -/
inductive RpcError where
  | methodNotFound (id : Nat)
  | invalidParams (id : Nat)
  | internalError (text : String) (id : Nat)
  deriving DecidableEq, Repr

/-- The JSON-RPC error code of each exception (−32601, −32602, −32603). -/
def RpcError.code : RpcError → Int
  | RpcError.methodNotFound _ => -32601
  | RpcError.invalidParams _ => -32602
  | RpcError.internalError _ _ => -32603

/-- A parsed JSON-RPC request: the method, the request id, and the parameters
the recognized methods read, each absent when the request does not carry it. -/
structure JsonRequest where
  method : String
  id : Nat
  clientParam : Option String
  volumeParam : Option Int
  muteParam : Option Bool
  latencyParam : Option Int
  nameParam : Option String
  deriving DecidableEq, Repr

/-- Modelled from the spec: `JsonRequest::getParam<T>(key, lo, hi)` of jsonrpc.h
(not under src/): the parameter if present and within [lo, hi], otherwise the
invalid-params error (−32602). -/
def getParamIntRange (v : Option Int) (lo hi : Int) (id : Nat) : Except RpcError Int :=
  match v with
  | none => Except.error (RpcError.invalidParams id)
  | some x =>
    if lo ≤ x ∧ x ≤ hi then Except.ok x else Except.error (RpcError.invalidParams id)

/-- Modelled from the spec: `JsonRequest::getParam(key)` for a string parameter:
the value if present, otherwise invalid-params. -/
def getParamString (v : Option String) (id : Nat) : Except RpcError String :=
  match v with
  | none => Except.error (RpcError.invalidParams id)
  | some s => Except.ok s

/-- Modelled from the spec: `JsonRequest::getParam<bool>(key, false, true)`:
the value if present, otherwise invalid-params (both booleans are in range). -/
def getParamBool (v : Option Bool) (id : Nat) : Except RpcError Bool :=
  match v with
  | none => Except.error (RpcError.invalidParams id)
  | some b => Except.ok b

/-- A `msg::ServerSettings` frame: refersTo id, bufferMs, and the per-client
volume, muted flag and latency. `refersTo` stays 0 when the frame is unsolicited. -/
structure ServerSettingsMsg where
  refersTo : Nat
  bufferMs : Int
  volume : Int
  muted : Bool
  latency : Int
  deriving DecidableEq, Repr

/-- Observable side effects of the JSON-RPC dispatcher, in program order:
a ServerSettings frame sent to the session with the given MAC, a config save,
or a notification (with the full ClientInfo) broadcast to all control peers. -/
inductive Effect where
  | sendServerSettings (mac : String) (settings : ServerSettingsMsg)
  | saveConfig
  | notify (method : String) (client : ClientInfo)
  deriving DecidableEq, Repr

/-- A JSON-RPC result value: a number, a boolean, a string, or the
`System.GetStatus` snapshot (the clients array; the static server host/version
fields come from the environment and are not modelled). -/
inductive JsonVal where
  | num (n : Int)
  | jbool (b : Bool)
  | jstr (s : String)
  | status (clients : List ClientInfo)
  deriving DecidableEq, Repr

/-- The coordinator state the dispatchers read and write: the Config store,
the session roster, and the configured bufferMs. -/
structure ServerState where
  cfg : Config
  sessions : List ClientSession
  bufferMs : Int
  deriving DecidableEq, Repr

/-- `StreamServer::getClientSession` (streamServer.cpp lines 277-285): linear
scan of the roster for the first session with the given MAC. -/
def getClientSession (sessions : List ClientSession) (mac : String) :
    Option ClientSession :=
  sessions.find? (fun s => s.macAddress == mac)

/-- `request.method.find("Client.Set") == 0` (streamServer.cpp line 123):
the method starts with "Client.Set". -/
def isClientSet (method : String) : Bool :=
  "Client.Set".data.isPrefixOf method.data

/-- The method dispatch chain of the control handler restricted to the
`Client.Set*` methods (streamServer.cpp lines 150-171): each recognized setter
reads its (range-checked) parameter, mutates the ClientInfo through the store's
shared pointer and returns the new value; an unrecognized method (the final
`else`) throws MethodNotFound. -/
def clientSetBranch (bufferMs : Int) (req : JsonRequest) (ci0 : ClientInfo) :
    Except RpcError (ClientInfo × JsonVal) :=
  if req.method == "Client.SetVolume" then
    match getParamIntRange req.volumeParam 0 100 req.id with
    | Except.error e => Except.error e
    | Except.ok v =>
      Except.ok ({ ci0 with volume := { ci0.volume with percent := v } },
                 JsonVal.num v)
  else if req.method == "Client.SetMute" then
    match getParamBool req.muteParam req.id with
    | Except.error e => Except.error e
    | Except.ok m =>
      Except.ok ({ ci0 with volume := { ci0.volume with muted := m } },
                 JsonVal.jbool m)
  else if req.method == "Client.SetLatency" then
    match getParamIntRange req.latencyParam (-10000) bufferMs req.id with
    | Except.error e => Except.error e
    | Except.ok v =>
      Except.ok ({ ci0 with latency := v }, JsonVal.num v)
  else if req.method == "Client.SetName" then
    match getParamString req.nameParam req.id with
    | Except.error e => Except.error e
    | Except.ok n =>
      Except.ok ({ ci0 with name := n }, JsonVal.jstr n)
  else
    Except.error (RpcError.methodNotFound req.id)

/-- The try-block of `StreamServer::onMessageReceived(ControlSession*, string)`
(streamServer.cpp lines 116-188): for a `Client.Set*` method look the client up
(create=false) and throw "Client not found" when absent; dispatch on the method
(unknown methods throw MethodNotFound); for a non-null clientInfo push a
ServerSettings to its session (if one is in the roster), save the config and
broadcast `Client.OnUpdate`. Returns the updated store, the effect list in
program order, and the response value. -/
def runControlRequest (st : ServerState) (req : JsonRequest) :
    Except RpcError (Config × List Effect × JsonVal) :=
  if isClientSet req.method then
    match getParamString req.clientParam req.id with
    | Except.error e => Except.error e
    | Except.ok mac =>
      match (getClientInfo st.cfg mac false).1 with
      | none => Except.error (RpcError.internalError "Client not found" req.id)
      | some ci0 =>
        match clientSetBranch st.bufferMs req ci0 with
        | Except.error e => Except.error e
        | Except.ok (ci, resp) =>
          let cfg' := updateClientInfo st.cfg ci
          let settings : ServerSettingsMsg :=
            { refersTo := 0, bufferMs := st.bufferMs, volume := ci.volume.percent,
              muted := ci.volume.muted, latency := ci.latency }
          let sessionEff : List Effect :=
            match getClientSession st.sessions mac with
            | some s => [Effect.sendServerSettings s.macAddress settings]
            | none => []
          Except.ok (cfg',
            sessionEff ++ [Effect.saveConfig, Effect.notify "Client.OnUpdate" ci],
            resp)
  else if req.method == "System.GetStatus" then
    let jClient : List ClientInfo :=
      match req.clientParam with
      | some mac =>
        match (getClientInfo st.cfg mac false).1 with
        | some c => [c]
        | none => []
      | none => st.cfg
    Except.ok (st.cfg, [], JsonVal.status jClient)
  else
    Except.error (RpcError.methodNotFound req.id)

/-- Outcome of one control message: the store afterwards, the effects, and the
reply sent back to the calling control session (response or error). -/
structure DispatchResult where
  cfg : Config
  effects : List Effect
  reply : Except RpcError JsonVal
  deriving Repr

/-- `StreamServer::onMessageReceived(ControlSession*, string)` with the catch
blocks (streamServer.cpp lines 94-199): a thrown JsonRequestException becomes the
error reply; the throws all happen before any side effect, so an error leaves the
store untouched and produces no effect. -/
def onControlMessageReceived (st : ServerState) (req : JsonRequest) : DispatchResult :=
  match runControlRequest st req with
  | Except.ok (cfg', effs, resp) => { cfg := cfg', effects := effs, reply := Except.ok resp }
  | Except.error e => { cfg := st.cfg, effects := [], reply := Except.error e }

/-- Whether an effect is a `Client.OnUpdate` notification. -/
def isOnUpdateNotify : Effect → Bool
  | Effect.notify m _ => m == "Client.OnUpdate"
  | _ => false

/-- The deserialized binary messages the client dispatcher handles
(message/request.h, command.h, hello.h): a Request carries its kind and the
envelope's id and sent/received timestamps; a Command carries its verb; a Hello
carries MAC, host name and version. `other` stands for any unhandled type. -/
inductive RequestKind where
  | kTime
  | kServerSettings
  | kSampleFormat
  | kHeader
  deriving DecidableEq, Repr

inductive ClientMessage where
  | request (kind : RequestKind) (id : Nat) (sent : Tv) (received : Tv)
  | command (cmd : String) (id : Nat)
  | hello (mac : String) (hostName : String) (version : String)
  | other
  deriving DecidableEq, Repr

/-- Replies the binary dispatcher sends back on the same session. The Time reply
carries the computed latency in seconds as an exact rational (the C++ double
arithmetic, represented exactly); SampleFormat and Header payloads come from the
server config and the pipe reader and only their refersTo id is modelled. -/
inductive ReplyMsg where
  | time (refersTo : Nat) (latency : Rat)
  | serverSettings (settings : ServerSettingsMsg)
  | sampleFormat (refersTo : Nat)
  | header (refersTo : Nat)
  | ack (refersTo : Nat)
  deriving DecidableEq, Repr

/-- Observable side effects of the binary dispatcher, in program order. -/
inductive BinEffect where
  | reply (m : ReplyMsg)
  | saveConfig
  | notifyControl (method : String) (client : ClientInfo)
  | setStreamActive (b : Bool)
  deriving DecidableEq, Repr

/-- Outcome of one binary message: the session afterwards (its MAC may have been
bound by Hello), the store afterwards, and the effects. -/
structure BinResult where
  session : ClientSession
  cfg : Config
  effects : List BinEffect
  deriving DecidableEq, Repr

/-- `StreamServer::onMessageReceived(ClientSession*, msg::BaseMessage&, char*)`
(streamServer.cpp lines 202-274). `now` is the wall clock read by gettimeofday
and `ip` the connection's peer address. Request{Time} computes
latency = (received.sec - sent.sec) + (received.usec - sent.usec) / 1e6 and
replies Time{refersTo = id}; Request{ServerSettings} looks the ClientInfo up by
the session's MAC with create = true and replies from it; Request{SampleFormat}
and Request{Header} reply with refersTo = id; Command{"startStream"} sends Ack
and marks the session streaming; Hello binds the MAC, fills the ClientInfo,
saves the config and broadcasts Client.OnConnect; anything else is ignored. -/
def onClientMessageReceived (st : ServerState) (session : ClientSession)
    (now : Tv) (ip : String) (msg : ClientMessage) : BinResult :=
  match msg with
  | ClientMessage.request kind id sent received =>
    match kind with
    | RequestKind.kTime =>
      { session := session, cfg := st.cfg,
        effects := [BinEffect.reply (ReplyMsg.time id
          (((received.sec - sent.sec : Int) : Rat)
            + ((received.usec - sent.usec : Int) : Rat) / 1000000))] }
    | RequestKind.kServerSettings =>
      let r := getClientInfo st.cfg session.macAddress true
      let ci := r.1.getD (defaultClientInfo session.macAddress)
      { session := session, cfg := r.2,
        effects := [BinEffect.reply (ReplyMsg.serverSettings
          { refersTo := id, bufferMs := st.bufferMs, volume := ci.volume.percent,
            muted := ci.volume.muted, latency := ci.latency })] }
    | RequestKind.kSampleFormat =>
      { session := session, cfg := st.cfg,
        effects := [BinEffect.reply (ReplyMsg.sampleFormat id)] }
    | RequestKind.kHeader =>
      { session := session, cfg := st.cfg,
        effects := [BinEffect.reply (ReplyMsg.header id)] }
  | ClientMessage.command cmd id =>
    if cmd == "startStream" then
      { session := session, cfg := st.cfg,
        effects := [BinEffect.reply (ReplyMsg.ack id),
                    BinEffect.setStreamActive true] }
    else
      { session := session, cfg := st.cfg, effects := [] }
  | ClientMessage.hello mac hostName version =>
    let session1 := { session with macAddress := mac }
    let r := getClientInfo st.cfg mac true
    let ci0 := r.1.getD (defaultClientInfo mac)
    let ci := { ci0 with
                ipAddress := ip,
                hostName := hostName,
                version := version,
                connected := true,
                lastSeen := now }
    { session := session1, cfg := updateClientInfo r.2 ci,
      effects := [BinEffect.saveConfig,
                  BinEffect.notifyControl "Client.OnConnect" ci] }
  | ClientMessage.other =>
    { session := session, cfg := st.cfg, effects := [] }

/-- Whether an effect is a ServerSettings push to some session. -/
def isSendSS : Effect → Bool
  | Effect.sendServerSettings _ _ => true
  | _ => false

/-- The kinds of statements of the coordinator that touch the roster or the
ClientInfo store, for the lock-discipline analysis. -/
inductive StepKind where
  | rosterInsert
  | rosterErase
  | clientInfoWrite (f : String)
  | clientInfoCreate
  | configSave
  deriving DecidableEq, Repr

/-- One statement together with whether `mutex_` is held at that statement,
read off the unique_lock scopes of streamServer.cpp. -/
structure LockedStep where
  kind : StepKind
  locked : Bool
  deriving DecidableEq, Repr

/-- Whether a step mutates the roster or the ClientInfo store. -/
def isMutationStep : StepKind → Bool
  | StepKind.rosterInsert => true
  | StepKind.rosterErase => true
  | StepKind.clientInfoWrite _ => true
  | StepKind.clientInfoCreate => true
  | StepKind.configSave => false

/-- Whether a step is a roster mutation (insert or erase). -/
def isRosterStep : StepKind → Bool
  | StepKind.rosterInsert => true
  | StepKind.rosterErase => true
  | _ => false

/-- Whether a step writes a ClientInfo field. -/
def isClientInfoWriteStep : StepKind → Bool
  | StepKind.clientInfoWrite _ => true
  | _ => false

/-- Lock profile of `StreamServer::send` (lines 45-67): the whole body, the
roster sweep included, runs under `std::unique_lock(mutex_)`. -/
def sendLockTrace : List LockedStep :=
  [{ kind := StepKind.rosterErase, locked := true }]

/-- Lock profile of `StreamServer::handleAccept` (lines 295-311):
`sessions_.insert(session)` is inside the unique_lock block. -/
def handleAcceptLockTrace : List LockedStep :=
  [{ kind := StepKind.rosterInsert, locked := true }]

/-- Lock profile of the JSON-RPC handler
`onMessageReceived(ControlSession*, const std::string&)` (lines 94-199): the
function acquires no lock; each Client.Set* writes its ClientInfo field and
saves the config with `mutex_` not held. -/
def setVolumeLockTrace : List LockedStep :=
  [{ kind := StepKind.clientInfoWrite "volume.percent", locked := false },
   { kind := StepKind.configSave, locked := false }]

def setMuteLockTrace : List LockedStep :=
  [{ kind := StepKind.clientInfoWrite "volume.muted", locked := false },
   { kind := StepKind.configSave, locked := false }]

def setLatencyLockTrace : List LockedStep :=
  [{ kind := StepKind.clientInfoWrite "latency", locked := false },
   { kind := StepKind.configSave, locked := false }]

def setNameLockTrace : List LockedStep :=
  [{ kind := StepKind.clientInfoWrite "name", locked := false },
   { kind := StepKind.configSave, locked := false }]

/-- Lock profile of the kHello branch of the binary handler (lines 256-273):
unlike the kServerSettings / kSampleFormat / kHeader branches, it takes no
unique_lock; every ClientInfo write and the save run with `mutex_` not held. -/
def helloLockTrace : List LockedStep :=
  [{ kind := StepKind.clientInfoCreate, locked := false },
   { kind := StepKind.clientInfoWrite "ipAddress", locked := false },
   { kind := StepKind.clientInfoWrite "hostName", locked := false },
   { kind := StepKind.clientInfoWrite "version", locked := false },
   { kind := StepKind.clientInfoWrite "connected", locked := false },
   { kind := StepKind.clientInfoWrite "lastSeen", locked := false },
   { kind := StepKind.configSave, locked := false }]

/-- Lock profile of the kServerSettings branch (lines 218-229): the lookup with
create = true (which may insert a record) is inside a unique_lock block. -/
def serverSettingsRequestLockTrace : List LockedStep :=
  [{ kind := StepKind.clientInfoCreate, locked := true }]

/-- Lock profile of `StreamServer::onDisconnect` (lines 83-91): no lock; the
connected flag and lastSeen are written and the config saved with `mutex_`
not held. -/
def onDisconnectLockTrace : List LockedStep :=
  [{ kind := StepKind.clientInfoWrite "connected", locked := false },
   { kind := StepKind.clientInfoWrite "lastSeen", locked := false },
   { kind := StepKind.configSave, locked := false }]

/-- The lock profiles of every coordinator code path that touches the roster or
the ClientInfo store. -/
def coordinatorLockTraces : List (List LockedStep) :=
  [sendLockTrace, handleAcceptLockTrace, setVolumeLockTrace, setMuteLockTrace,
   setLatencyLockTrace, setNameLockTrace, helloLockTrace,
   serverSettingsRequestLockTrace, onDisconnectLockTrace]

/-- A concrete MAC, state and requests for the closed example theorems:
one known client and one identified active session for it. -/
def exMac : String := "00:11:22:33:44:55"

def exState : ServerState :=
  { cfg := [defaultClientInfo exMac],
    sessions := [{ macAddress := exMac, isActive := true }],
    bufferMs := 1000 }

def exSetVolumeReq : JsonRequest :=
  { method := "Client.SetVolume", id := 1, clientParam := some exMac,
    volumeParam := some 42, muteParam := none, latencyParam := none,
    nameParam := none }

/-- Scenario S6: SetLatency with latency = bufferMs + 1 on the known client. -/
def exSetLatencyReq : JsonRequest :=
  { method := "Client.SetLatency", id := 2, clientParam := some exMac,
    volumeParam := none, muteParam := none, latencyParam := some 1001,
    nameParam := none }

/-- Scenario S3: SetMute aimed at a MAC with no ClientInfo record. -/
def exUnknownReq : JsonRequest :=
  { method := "Client.SetMute", id := 3,
    clientParam := some "aa:aa:aa:aa:aa:aa", volumeParam := none,
    muteParam := some true, latencyParam := none, nameParam := none }

lemma sweepSessions_roster (l : List ClientSession) :
    (sweepSessions l).1 = l.filter (fun s => s.isActive) := by
  induction l with
  | nil => rfl
  | cons s rest ih =>
    by_cases h : s.isActive
    · simp [sweepSessions, List.filter_cons, h, ih]
    · simp [sweepSessions, List.filter_cons, h, ih]

lemma sweepSessions_stopped (l : List ClientSession) :
    (sweepSessions l).2.1 = l.filter (fun s => !s.isActive) := by
  induction l with
  | nil => rfl
  | cons s rest ih =>
    by_cases h : s.isActive
    · simp [sweepSessions, List.filter_cons, h, ih]
    · simp [sweepSessions, List.filter_cons, h, ih]

lemma sweepSessions_msgs (l : List ClientSession) :
    (sweepSessions l).2.2
      = (l.filter (fun s => !s.isActive)).map (fun s => "Client gone: " ++ s.macAddress) := by
  induction l with
  | nil => rfl
  | cons s rest ih =>
    by_cases h : s.isActive
    · simp [sweepSessions, List.filter_cons, h, ih]
    · simp [sweepSessions, List.filter_cons, h, ih]

/-- Claim C1: on every broadcast (`StreamServer::send`, as invoked by `onChunkRead`),
every session in the roster whose `active()` is false is removed from the roster,
has `stop()` called on it in a detached thread, and causes a "Client gone: <mac>"
control message; afterwards the chunk is wrapped in a single shared reference and
`add` is invoked exactly once on every surviving session and never on a removed one. -/
theorem claim_C1_fanout {α : Type} [DecidableEq α] (chunk : α)
    (sessions : List ClientSession) :
    (∀ s ∈ sessions, s.isActive = false →
        s ∉ (StreamServer.onChunkRead chunk sessions).roster ∧
        s ∈ (StreamServer.onChunkRead chunk sessions).stopped ∧
        ("Client gone: " ++ s.macAddress) ∈ (StreamServer.onChunkRead chunk sessions).controlMsgs) ∧
    (∀ s : ClientSession, s.isActive = true →
        ((StreamServer.onChunkRead chunk sessions).addedTo).count (s, chunk)
          = sessions.count s) ∧
    (∀ s : ClientSession, s.isActive = false →
        ((StreamServer.onChunkRead chunk sessions).addedTo).count (s, chunk) = 0) ∧
    (∀ p ∈ (StreamServer.onChunkRead chunk sessions).addedTo, p.2 = chunk) := by
  unfold StreamServer.onChunkRead StreamServer.send
  simp only [sweepSessions_roster, sweepSessions_stopped, sweepSessions_msgs]
  refine ⟨?_, ?_, ?_, ?_⟩
  · intro s hs hinact
    refine ⟨?_, ?_, ?_⟩
    · intro hmem
      rcases List.mem_filter.mp hmem with ⟨-, hact⟩
      simp [hinact] at hact
    · exact List.mem_filter.mpr ⟨hs, by simp [hinact]⟩
    · exact List.mem_map_of_mem _ (List.mem_filter.mpr ⟨hs, by simp [hinact]⟩)
  · intro s hact
    induction sessions with
    | nil => rfl
    | cons t rest ih =>
      by_cases ht : t.isActive
      · simp only [List.filter_cons, ht, if_pos, List.map_cons]
        by_cases hts : t = s
        · subst hts
          simp [List.count_cons, ih]
        · simp only [List.count_cons]
          have h1 : ((t, chunk) = (s, chunk)) = False := by
            simp [Prod.ext_iff, hts]
          have h2 : (t = s) = False := by simp [hts]
          simp only [List.filter_cons, ht] at ih ⊢
          simp [h1, h2, ih]
      · have hts : t ≠ s := by
          intro h
          rw [h] at ht
          exact ht (by simp [hact])
        simp only [List.filter_cons]
        simp only [ht, if_neg, Bool.false_eq_true, not_false_iff]
        simp only [List.count_cons]
        simp [hts, ih]
  · intro s hinact
    rw [List.count_eq_zero]
    intro hmem
    rcases List.mem_map.mp hmem with ⟨t, htmem, hteq⟩
    rcases List.mem_filter.mp htmem with ⟨-, hact⟩
    have : t = s := congrArg Prod.fst hteq
    rw [this] at hact
    simp [hinact] at hact
  · intro p hp
    rcases List.mem_map.mp hp with ⟨t, -, hteq⟩
    exact (congrArg Prod.snd hteq).symm ▸ rfl

lemma findClientInfo_mac (cfg : Config) (mac : String) (c : ClientInfo)
    (h : findClientInfo cfg mac = some c) : c.mac = mac := by
  unfold findClientInfo at h
  have hp := List.find?_some h
  exact eq_of_beq hp

lemma findClientInfo_updateClientInfo (cfg : Config) (ci : ClientInfo)
    (h : ∃ c, findClientInfo cfg ci.mac = some c) :
    findClientInfo (updateClientInfo cfg ci) ci.mac = some ci := by
  obtain ⟨c, hc⟩ := h
  induction cfg with
  | nil => simp [findClientInfo] at hc
  | cons d rest ih =>
    unfold findClientInfo at hc
    unfold findClientInfo updateClientInfo at ih ⊢
    rw [List.map_cons]
    by_cases hd : (d.mac == ci.mac) = true
    · rw [if_pos hd]
      simp [List.find?]
    · rw [if_neg hd]
      have hd' : (d.mac == ci.mac) = false := by simpa using hd
      simp only [List.find?, hd'] at hc ⊢
      exact ih hc

lemma clientSetBranch_ok_mac (bufferMs : Int) (req : JsonRequest)
    (ci0 ci : ClientInfo) (resp : JsonVal)
    (h : clientSetBranch bufferMs req ci0 = Except.ok (ci, resp)) :
    ci.mac = ci0.mac := by
  unfold clientSetBranch at h
  split at h
  · split at h
    · exact Except.noConfusion h
    · injection h with h'
      injection h' with h1 h2
      subst h1
      rfl
  · split at h
    · split at h
      · exact Except.noConfusion h
      · injection h with h'
        injection h' with h1 h2
        subst h1
        rfl
    · split at h
      · split at h
        · exact Except.noConfusion h
        · injection h with h'
          injection h' with h1 h2
          subst h1
          rfl
      · split at h
        · split at h
          · exact Except.noConfusion h
          · injection h with h'
            injection h' with h1 h2
            subst h1
            rfl
        · exact Except.noConfusion h

lemma getClientInfo_false_none (cfg : Config) (mac : String)
    (h : findClientInfo cfg mac = none) :
    getClientInfo cfg mac false = (none, cfg) := by
  unfold getClientInfo
  rw [h]
  rfl

lemma getClientInfo_found (cfg : Config) (mac : String) (create : Bool)
    (c : ClientInfo) (h : findClientInfo cfg mac = some c) :
    getClientInfo cfg mac create = (some c, cfg) := by
  unfold getClientInfo
  rw [h]

lemma getClientInfo_true_none (cfg : Config) (mac : String)
    (h : findClientInfo cfg mac = none) :
    getClientInfo cfg mac true
      = (some (defaultClientInfo mac), cfg ++ [defaultClientInfo mac]) := by
  unfold getClientInfo
  rw [h]
  rfl

lemma runControlRequest_clientSet_ok (st : ServerState) (req : JsonRequest)
    (cfg' : Config) (effs : List Effect) (resp : JsonVal)
    (hm : isClientSet req.method = true)
    (h : runControlRequest st req = Except.ok (cfg', effs, resp)) :
    ∃ mac ci,
      req.clientParam = some mac ∧
      ci.mac = mac ∧
      (∃ ci0, findClientInfo st.cfg mac = some ci0 ∧
        clientSetBranch st.bufferMs req ci0 = Except.ok (ci, resp)) ∧
      cfg' = updateClientInfo st.cfg ci ∧
      effs = (match getClientSession st.sessions mac with
              | some s => [Effect.sendServerSettings s.macAddress
                  { refersTo := 0, bufferMs := st.bufferMs,
                    volume := ci.volume.percent, muted := ci.volume.muted,
                    latency := ci.latency }]
              | none => []) ++
             [Effect.saveConfig, Effect.notify "Client.OnUpdate" ci] := by
  unfold runControlRequest at h
  rw [if_pos hm] at h
  cases hcp : req.clientParam with
  | none =>
    rw [hcp] at h
    simp only [getParamString] at h
    exact Except.noConfusion h
  | some mac =>
    rw [hcp] at h
    simp only [getParamString] at h
    cases hfind : findClientInfo st.cfg mac with
    | none =>
      rw [getClientInfo_false_none st.cfg mac hfind] at h
      exact Except.noConfusion h
    | some ci0 =>
      rw [getClientInfo_found st.cfg mac false ci0 hfind] at h
      dsimp only at h
      cases hb : clientSetBranch st.bufferMs req ci0 with
      | error e =>
        rw [hb] at h
        exact Except.noConfusion h
      | ok p =>
        obtain ⟨ci, resp0⟩ := p
        rw [hb] at h
        dsimp only at h
        injection h with h'
        injection h' with h1 h23
        injection h23 with h2 h3
        refine ⟨mac, ci, rfl, ?_, ⟨ci0, hfind, ?_⟩, h1.symm, h2.symm⟩
        · exact (clientSetBranch_ok_mac _ _ _ _ _ hb).trans
            (findClientInfo_mac _ _ _ hfind)
        · rw [hb, h3]

lemma getStatus_no_effects (st : ServerState) (req : JsonRequest)
    (hm : req.method = "System.GetStatus") :
    (onControlMessageReceived st req).effects = [] := by
  have h1 : isClientSet req.method = false := by rw [hm]; decide
  unfold onControlMessageReceived runControlRequest
  rw [if_neg (by simp [h1])]
  rw [if_pos (show (req.method == "System.GetStatus") = true by rw [hm]; exact beq_self_eq_true _)]

/-- Claim C2: every JSON-RPC request whose method is Client.SetVolume,
Client.SetMute, Client.SetLatency or Client.SetName and that completes
successfully broadcasts exactly one Client.OnUpdate notification carrying the
full ClientInfo, persists the config, and sends a ServerSettings frame with the
client's new volume, mute and latency to that client's session if one with that
MAC is in the roster; System.GetStatus never emits a Client.OnUpdate. -/
theorem claim_C2_onUpdate (st : ServerState) (req : JsonRequest)
    (hm : req.method = "Client.SetVolume" ∨ req.method = "Client.SetMute" ∨
          req.method = "Client.SetLatency" ∨ req.method = "Client.SetName")
    (hok : ∃ v, (onControlMessageReceived st req).reply = Except.ok v) :
    (∃ mac ci,
      req.clientParam = some mac ∧
      findClientInfo (onControlMessageReceived st req).cfg mac = some ci ∧
      ((onControlMessageReceived st req).effects.filter isOnUpdateNotify)
        = [Effect.notify "Client.OnUpdate" ci] ∧
      Effect.saveConfig ∈ (onControlMessageReceived st req).effects ∧
      (∀ s, getClientSession st.sessions mac = some s →
        Effect.sendServerSettings s.macAddress
          { refersTo := 0, bufferMs := st.bufferMs, volume := ci.volume.percent,
            muted := ci.volume.muted, latency := ci.latency }
          ∈ (onControlMessageReceived st req).effects)) ∧
    (∀ st1 req1, req1.method = "System.GetStatus" →
      ((onControlMessageReceived st1 req1).effects.filter isOnUpdateNotify) = []) ∧
    (∀ st1 req1, isClientSet req1.method = false →
      ((onControlMessageReceived st1 req1).effects.filter isOnUpdateNotify) = []) := by
  have hcs : isClientSet req.method = true := by
    rcases hm with h | h | h | h <;> rw [h] <;> decide
  obtain ⟨v, hv⟩ := hok
  constructor
  · unfold onControlMessageReceived at hv ⊢
    cases hr : runControlRequest st req with
    | error e =>
      rw [hr] at hv
      exact Except.noConfusion hv
    | ok t =>
      obtain ⟨cfg1, effs, resp⟩ := t
      dsimp only
      obtain ⟨mac, ci, hcp, hmac, ⟨ci0, hfind, hbr⟩, hcfg, heffs⟩ :=
        runControlRequest_clientSet_ok st req cfg1 effs resp hcs hr
      refine ⟨mac, ci, hcp, ?_, ?_, ?_, ?_⟩
      · rw [hcfg, ← hmac]
        exact findClientInfo_updateClientInfo st.cfg ci
          ⟨ci0, by rw [hmac]; exact hfind⟩
      · rw [heffs]
        cases hgs : getClientSession st.sessions mac <;>
          simp [isOnUpdateNotify, List.filter_append]
      · rw [heffs]
        cases hgs : getClientSession st.sessions mac <;> simp
      · intro s hs
        rw [heffs, hs]
        simp
  · refine ⟨?_, ?_⟩
    · intro st1 req1 hm1
      rw [getStatus_no_effects st1 req1 hm1]
      rfl
    · intro st1 req1 hm1
      unfold onControlMessageReceived runControlRequest
      rw [if_neg (by simp [hm1])]
      by_cases hg : (req1.method == "System.GetStatus") = true
      · rw [if_pos hg]
        rfl
      · rw [if_neg hg]
        rfl

/-- Witness for claim C2: the Client.SetVolume round trip of scenario S2 on the
concrete one-client state. -/
theorem claim_C2_onUpdate_witness :
    (∃ mac ci,
      exSetVolumeReq.clientParam = some mac ∧
      findClientInfo (onControlMessageReceived exState exSetVolumeReq).cfg mac
        = some ci ∧
      ((onControlMessageReceived exState exSetVolumeReq).effects.filter
          isOnUpdateNotify)
        = [Effect.notify "Client.OnUpdate" ci] ∧
      Effect.saveConfig ∈ (onControlMessageReceived exState exSetVolumeReq).effects ∧
      (∀ s, getClientSession exState.sessions mac = some s →
        Effect.sendServerSettings s.macAddress
          { refersTo := 0, bufferMs := exState.bufferMs,
            volume := ci.volume.percent, muted := ci.volume.muted,
            latency := ci.latency }
          ∈ (onControlMessageReceived exState exSetVolumeReq).effects)) ∧
    (∀ st1 req1, req1.method = "System.GetStatus" →
      ((onControlMessageReceived st1 req1).effects.filter isOnUpdateNotify) = []) ∧
    (∀ st1 req1, isClientSet req1.method = false →
      ((onControlMessageReceived st1 req1).effects.filter isOnUpdateNotify) = []) :=
  claim_C2_onUpdate exState exSetVolumeReq (Or.inl rfl) ⟨JsonVal.num 42, rfl⟩

/-- Claim C3: Client.SetLatency with a value outside [−10000, bufferMs] on an
existing client replies invalid-params (−32602), leaves the client's stored
state untouched, pushes no ServerSettings and broadcasts no notification; a
value inside the range is stored and returned, so latency ≤ bufferMs holds
after the mutation. -/
theorem claim_C3_latencyRange (st : ServerState) (req : JsonRequest)
    (mac : String) (v : Int) (ci : ClientInfo)
    (hm : req.method = "Client.SetLatency")
    (hcp : req.clientParam = some mac)
    (hlp : req.latencyParam = some v)
    (hci : findClientInfo st.cfg mac = some ci) :
    ((¬ (-10000 ≤ v ∧ v ≤ st.bufferMs)) →
      (onControlMessageReceived st req).reply
        = Except.error (RpcError.invalidParams req.id) ∧
      (RpcError.invalidParams req.id).code = -32602 ∧
      (onControlMessageReceived st req).cfg = st.cfg ∧
      (onControlMessageReceived st req).effects = []) ∧
    ((-10000 ≤ v ∧ v ≤ st.bufferMs) →
      (onControlMessageReceived st req).reply = Except.ok (JsonVal.num v) ∧
      findClientInfo (onControlMessageReceived st req).cfg mac
        = some { ci with latency := v } ∧
      ({ ci with latency := v }).latency ≤ st.bufferMs) := by
  constructor
  · intro hout
    unfold onControlMessageReceived runControlRequest clientSetBranch
    rw [hm, hcp, hlp]
    rw [if_pos (show isClientSet "Client.SetLatency" = true by decide)]
    dsimp only [getParamString]
    rw [getClientInfo_found st.cfg mac false ci hci]
    dsimp only
    rw [if_neg (show ¬ (("Client.SetLatency" == "Client.SetVolume") = true) by decide)]
    rw [if_neg (show ¬ (("Client.SetLatency" == "Client.SetMute") = true) by decide)]
    rw [if_pos (show ("Client.SetLatency" == "Client.SetLatency") = true by decide)]
    dsimp only [getParamIntRange]
    rw [if_neg hout]
    exact ⟨rfl, rfl, rfl, rfl⟩
  · intro hin
    unfold onControlMessageReceived runControlRequest clientSetBranch
    rw [hm, hcp, hlp]
    rw [if_pos (show isClientSet "Client.SetLatency" = true by decide)]
    dsimp only [getParamString]
    rw [getClientInfo_found st.cfg mac false ci hci]
    dsimp only
    rw [if_neg (show ¬ (("Client.SetLatency" == "Client.SetVolume") = true) by decide)]
    rw [if_neg (show ¬ (("Client.SetLatency" == "Client.SetMute") = true) by decide)]
    rw [if_pos (show ("Client.SetLatency" == "Client.SetLatency") = true by decide)]
    dsimp only [getParamIntRange]
    rw [if_pos hin]
    refine ⟨rfl, ?_, hin.2⟩
    show findClientInfo (updateClientInfo st.cfg { ci with latency := v }) mac
      = some { ci with latency := v }
    have hmac : ci.mac = mac := findClientInfo_mac st.cfg mac ci hci
    rw [← hmac]
    refine findClientInfo_updateClientInfo st.cfg { ci with latency := v } ⟨ci, ?_⟩
    show findClientInfo st.cfg ci.mac = some ci
    rw [hmac]
    exact hci

/-- Witness for claim C3: scenario S6 — SetLatency with bufferMs + 1 = 1001 on
the concrete state is rejected with invalid-params and changes nothing. -/
theorem claim_C3_latencyRange_witness :
    (onControlMessageReceived exState exSetLatencyReq).reply
      = Except.error (RpcError.invalidParams 2) ∧
    (onControlMessageReceived exState exSetLatencyReq).cfg = exState.cfg ∧
    (onControlMessageReceived exState exSetLatencyReq).effects = [] :=
  have h := claim_C3_latencyRange exState exSetLatencyReq exMac 1001
    (defaultClientInfo exMac) rfl rfl rfl rfl
  have h2 := h.1 (by decide)
  ⟨h2.1, h2.2.2.1, h2.2.2.2⟩

/-- Claim C4: a request whose method starts with "Client.Set" naming a MAC with
no existing ClientInfo is answered with InternalError (−32603) "Client not
found" carrying the request id; no ClientInfo is created, no state is mutated
and no notification is broadcast. -/
theorem claim_C4_unknownClient (st : ServerState) (req : JsonRequest)
    (mac : String)
    (hm : isClientSet req.method = true)
    (hcp : req.clientParam = some mac)
    (hnone : findClientInfo st.cfg mac = none) :
    (onControlMessageReceived st req).reply
      = Except.error (RpcError.internalError "Client not found" req.id) ∧
    (RpcError.internalError "Client not found" req.id).code = -32603 ∧
    (onControlMessageReceived st req).cfg = st.cfg ∧
    (onControlMessageReceived st req).effects = [] := by
  unfold onControlMessageReceived runControlRequest
  rw [if_pos hm, hcp]
  dsimp only [getParamString]
  rw [getClientInfo_false_none st.cfg mac hnone]
  exact ⟨rfl, rfl, rfl, rfl⟩

/-- Witness for claim C4: scenario S3 — SetMute for the unknown MAC
aa:aa:aa:aa:aa:aa on the concrete state. -/
theorem claim_C4_unknownClient_witness :
    (onControlMessageReceived exState exUnknownReq).reply
      = Except.error (RpcError.internalError "Client not found" 3) ∧
    (RpcError.internalError "Client not found" 3).code = -32603 ∧
    (onControlMessageReceived exState exUnknownReq).cfg = exState.cfg ∧
    (onControlMessageReceived exState exUnknownReq).effects = [] :=
  claim_C4_unknownClient exState exUnknownReq "aa:aa:aa:aa:aa:aa"
    (by decide) rfl rfl

/-- Claim C6 (amended): for every successful Client.Set* mutation the side
effects occur in the order: the fresh ServerSettings frame is pushed to the
target client's session first when one with that MAC is in the roster (none is
pushed otherwise), then the config is persisted, then the Client.OnUpdate
notification is broadcast — so in every case the Client.OnUpdate notification
is emitted only after the mutation is persisted, and the persist never
precedes the push. -/
theorem claim_C6_effect_order (st : ServerState) (req : JsonRequest)
    (hm : req.method = "Client.SetVolume" ∨ req.method = "Client.SetMute" ∨
          req.method = "Client.SetLatency" ∨ req.method = "Client.SetName")
    (hok : ∃ v, (onControlMessageReceived st req).reply = Except.ok v) :
    ∃ mac ci,
      req.clientParam = some mac ∧
      (∃ l1 l2, (onControlMessageReceived st req).effects
          = l1 ++ Effect.saveConfig :: l2 ∧
        Effect.notify "Client.OnUpdate" ci ∈ l2) ∧
      (∀ s, getClientSession st.sessions mac = some s →
        (onControlMessageReceived st req).effects
          = [Effect.sendServerSettings s.macAddress
               { refersTo := 0, bufferMs := st.bufferMs,
                 volume := ci.volume.percent, muted := ci.volume.muted,
                 latency := ci.latency },
             Effect.saveConfig, Effect.notify "Client.OnUpdate" ci]) ∧
      (getClientSession st.sessions mac = none →
        (onControlMessageReceived st req).effects
          = [Effect.saveConfig, Effect.notify "Client.OnUpdate" ci]) := by
  have hcs : isClientSet req.method = true := by
    rcases hm with h | h | h | h <;> rw [h] <;> decide
  obtain ⟨v, hv⟩ := hok
  unfold onControlMessageReceived at hv ⊢
  cases hr : runControlRequest st req with
  | error e =>
    rw [hr] at hv
    exact Except.noConfusion hv
  | ok t =>
    obtain ⟨cfg1, effs, resp⟩ := t
    dsimp only
    obtain ⟨mac, ci, hcp1, hmac, ⟨ci0, hfind, hbr⟩, hcfg, heffs⟩ :=
      runControlRequest_clientSet_ok st req cfg1 effs resp hcs hr
    refine ⟨mac, ci, hcp1, ?_, ?_, ?_⟩
    · cases hgs : getClientSession st.sessions mac with
      | some s =>
        rw [hgs] at heffs
        exact ⟨[Effect.sendServerSettings s.macAddress
            { refersTo := 0, bufferMs := st.bufferMs,
              volume := ci.volume.percent, muted := ci.volume.muted,
              latency := ci.latency }],
          [Effect.notify "Client.OnUpdate" ci], by simp [heffs], by simp⟩
      | none =>
        rw [hgs] at heffs
        exact ⟨[], [Effect.notify "Client.OnUpdate" ci], by simp [heffs], by simp⟩
    · intro s hs
      rw [hs] at heffs
      simp [heffs]
    · intro hnone
      rw [hnone] at heffs
      simp [heffs]

/-- Counterexample to claim C6 as stated: on the concrete SetVolume round trip
(scenario S2) the trace contains a ServerSettings push, yet no config persist
occurs before any push — the code sends the frame first (line 181) and calls
save afterwards (line 183), so "first the config is persisted, then the
ServerSettings frame is pushed" is false. -/
theorem claim_C6_counterexample :
    (onControlMessageReceived exState exSetVolumeReq).reply
      = Except.ok (JsonVal.num 42) ∧
    (∃ j : Fin (onControlMessageReceived exState exSetVolumeReq).effects.length,
      isSendSS ((onControlMessageReceived exState exSetVolumeReq).effects.get j)
        = true) ∧
    ¬ (∃ i j :
        Fin (onControlMessageReceived exState exSetVolumeReq).effects.length,
      i.val < j.val ∧
      (onControlMessageReceived exState exSetVolumeReq).effects.get i
        = Effect.saveConfig ∧
      isSendSS ((onControlMessageReceived exState exSetVolumeReq).effects.get j)
        = true) := by
  refine ⟨rfl, ?_, ?_⟩ <;> decide

/-- Witness for the amended claim C6: the concrete SetVolume round trip, where
the push-persist-notify order is realized for the connected session. -/
theorem claim_C6_effect_order_witness :
    ∃ mac ci,
      exSetVolumeReq.clientParam = some mac ∧
      (∃ l1 l2, (onControlMessageReceived exState exSetVolumeReq).effects
          = l1 ++ Effect.saveConfig :: l2 ∧
        Effect.notify "Client.OnUpdate" ci ∈ l2) ∧
      (∀ s, getClientSession exState.sessions mac = some s →
        (onControlMessageReceived exState exSetVolumeReq).effects
          = [Effect.sendServerSettings s.macAddress
               { refersTo := 0, bufferMs := exState.bufferMs,
                 volume := ci.volume.percent, muted := ci.volume.muted,
                 latency := ci.latency },
             Effect.saveConfig, Effect.notify "Client.OnUpdate" ci]) ∧
      (getClientSession exState.sessions mac = none →
        (onControlMessageReceived exState exSetVolumeReq).effects
          = [Effect.saveConfig, Effect.notify "Client.OnUpdate" ci]) :=
  claim_C6_effect_order exState exSetVolumeReq (Or.inl rfl)
    ⟨JsonVal.num 42, rfl⟩

lemma findClientInfo_append (cfg1 cfg2 : Config) (mac : String)
    (h : findClientInfo cfg1 mac = none) :
    findClientInfo (cfg1 ++ cfg2) mac = findClientInfo cfg2 mac := by
  induction cfg1 with
  | nil => rfl
  | cons d rest ih =>
    unfold findClientInfo at h ih ⊢
    rw [List.cons_append]
    by_cases hd : (d.mac == mac) = true
    · simp only [List.find?, hd] at h
      exact Option.noConfusion h
    · have hd' : (d.mac == mac) = false := by simpa using hd
      simp only [List.find?, hd'] at h ⊢
      exact ih h

/-- Claim C5: a binary Request of kind Time is answered with a Time message
whose refersTo equals the request's id and whose latency equals
(received.sec − sent.sec) + (received.usec − sent.usec)/1e6 seconds, computed
from the request's own sent and received timestamps; no state is modified. -/
theorem claim_C5_timeRequest (st : ServerState) (session : ClientSession)
    (now : Tv) (ip : String) (id : Nat) (sent received : Tv) :
    (onClientMessageReceived st session now ip
        (ClientMessage.request RequestKind.kTime id sent received)).effects
      = [BinEffect.reply (ReplyMsg.time id
          (((received.sec - sent.sec : Int) : Rat)
            + ((received.usec - sent.usec : Int) : Rat) / 1000000))] ∧
    (onClientMessageReceived st session now ip
        (ClientMessage.request RequestKind.kTime id sent received)).cfg
      = st.cfg ∧
    (onClientMessageReceived st session now ip
        (ClientMessage.request RequestKind.kTime id sent received)).session
      = session :=
  ⟨rfl, rfl, rfl⟩

/-- Claim C7: on Hello the session's MAC is bound to the Hello's MAC, a
ClientInfo for that MAC is looked up or created, its ipAddress, hostName and
version are set from the connection and the payload, connected becomes true and
lastSeen the current time, the config is persisted and Client.OnConnect with
that ClientInfo is broadcast to the control peers. -/
theorem claim_C7_hello (st : ServerState) (session : ClientSession)
    (now : Tv) (ip : String) (mac hostName version : String) :
    (onClientMessageReceived st session now ip
        (ClientMessage.hello mac hostName version)).session.macAddress = mac ∧
    ∃ ci,
      findClientInfo (onClientMessageReceived st session now ip
          (ClientMessage.hello mac hostName version)).cfg mac = some ci ∧
      ci.ipAddress = ip ∧ ci.hostName = hostName ∧ ci.version = version ∧
      ci.connected = true ∧ ci.lastSeen = now ∧
      (onClientMessageReceived st session now ip
          (ClientMessage.hello mac hostName version)).effects
        = [BinEffect.saveConfig,
           BinEffect.notifyControl "Client.OnConnect" ci] := by
  unfold onClientMessageReceived
  dsimp only
  cases hfind : findClientInfo st.cfg mac with
  | some c =>
    rw [getClientInfo_found st.cfg mac true c hfind]
    dsimp only
    have hmac : c.mac = mac := findClientInfo_mac st.cfg mac c hfind
    refine ⟨rfl, { c with
      ipAddress := ip,
      hostName := hostName,
      version := version,
      connected := true,
      lastSeen := now }, ?_, rfl, rfl, rfl, rfl, rfl, rfl⟩
    have hmac2 : ({ c with
        ipAddress := ip,
        hostName := hostName,
        version := version,
        connected := true,
        lastSeen := now } : ClientInfo).mac = mac := hmac
    rw [← hmac2]
    refine findClientInfo_updateClientInfo st.cfg _ ⟨c, ?_⟩
    show findClientInfo st.cfg c.mac = some c
    rw [hmac]
    exact hfind
  | none =>
    rw [getClientInfo_true_none st.cfg mac hfind]
    dsimp only
    refine ⟨rfl, { defaultClientInfo mac with
      ipAddress := ip,
      hostName := hostName,
      version := version,
      connected := true,
      lastSeen := now }, ?_, rfl, rfl, rfl, rfl, rfl, rfl⟩
    have hmac2 : ({ defaultClientInfo mac with
        ipAddress := ip,
        hostName := hostName,
        version := version,
        connected := true,
        lastSeen := now } : ClientInfo).mac = mac := rfl
    rw [← hmac2]
    refine findClientInfo_updateClientInfo (st.cfg ++ [defaultClientInfo mac]) _
      ⟨defaultClientInfo mac, ?_⟩
    show findClientInfo (st.cfg ++ [defaultClientInfo mac]) mac
      = some (defaultClientInfo mac)
    rw [findClientInfo_append st.cfg [defaultClientInfo mac] mac hfind]
    simp [findClientInfo, defaultClientInfo, List.find?]

/-- Claim C8: a client session that has not yet sent Hello (its MAC still
unbound, the empty string) still gets an answer for a binary Request of kind
Time, ServerSettings, SampleFormat or Header; the binary dispatcher never
requires a bound MAC before serving these requests. -/
theorem claim_C8_preHello (st : ServerState) (session : ClientSession)
    (now : Tv) (ip : String) (id : Nat) (sent received : Tv)
    (hmac : session.macAddress = "") :
    (∃ q, (onClientMessageReceived st session now ip
        (ClientMessage.request RequestKind.kTime id sent received)).effects
      = [BinEffect.reply (ReplyMsg.time id q)]) ∧
    (∃ settings, (onClientMessageReceived st session now ip
        (ClientMessage.request RequestKind.kServerSettings id sent received)).effects
      = [BinEffect.reply (ReplyMsg.serverSettings settings)] ∧
      settings.refersTo = id) ∧
    ((onClientMessageReceived st session now ip
        (ClientMessage.request RequestKind.kSampleFormat id sent received)).effects
      = [BinEffect.reply (ReplyMsg.sampleFormat id)]) ∧
    ((onClientMessageReceived st session now ip
        (ClientMessage.request RequestKind.kHeader id sent received)).effects
      = [BinEffect.reply (ReplyMsg.header id)]) :=
  ⟨⟨_, rfl⟩, ⟨_, rfl, rfl⟩, rfl, rfl⟩

/-- Witness for claim C8: a fresh pre-Hello session against the concrete state
is served all four request kinds. -/
theorem claim_C8_preHello_witness :
    (∃ q, (onClientMessageReceived exState { macAddress := "", isActive := true }
        { sec := 100, usec := 0 } "192.168.0.2"
        (ClientMessage.request RequestKind.kTime 7 { sec := 100, usec := 0 }
          { sec := 100, usec := 500 })).effects
      = [BinEffect.reply (ReplyMsg.time 7 q)]) ∧
    (∃ settings, (onClientMessageReceived exState
        { macAddress := "", isActive := true } { sec := 100, usec := 0 }
        "192.168.0.2"
        (ClientMessage.request RequestKind.kServerSettings 7
          { sec := 100, usec := 0 } { sec := 100, usec := 500 })).effects
      = [BinEffect.reply (ReplyMsg.serverSettings settings)] ∧
      settings.refersTo = 7) ∧
    ((onClientMessageReceived exState { macAddress := "", isActive := true }
        { sec := 100, usec := 0 } "192.168.0.2"
        (ClientMessage.request RequestKind.kSampleFormat 7
          { sec := 100, usec := 0 } { sec := 100, usec := 500 })).effects
      = [BinEffect.reply (ReplyMsg.sampleFormat 7)]) ∧
    ((onClientMessageReceived exState { macAddress := "", isActive := true }
        { sec := 100, usec := 0 } "192.168.0.2"
        (ClientMessage.request RequestKind.kHeader 7 { sec := 100, usec := 0 }
          { sec := 100, usec := 500 })).effects
      = [BinEffect.reply (ReplyMsg.header 7)]) :=
  claim_C8_preHello exState { macAddress := "", isActive := true }
    { sec := 100, usec := 0 } "192.168.0.2" 7 { sec := 100, usec := 0 }
    { sec := 100, usec := 500 } rfl

/-- Claim C10: for a session whose MAC is still the empty string, a
Request{ServerSettings} makes the coordinator look the ClientInfo up keyed by
the empty string with create = true, so a record whose MAC is the empty string
is created when absent, and its volume, mute and latency populate the reply,
whose refersTo equals the request id. -/
theorem claim_C10_emptyMac (st : ServerState) (session : ClientSession)
    (now : Tv) (ip : String) (id : Nat) (sent received : Tv)
    (hmac : session.macAddress = "") :
    ∃ ci,
      (getClientInfo st.cfg "" true).1 = some ci ∧
      ci.mac = "" ∧
      (onClientMessageReceived st session now ip
          (ClientMessage.request RequestKind.kServerSettings id sent received)).cfg
        = (getClientInfo st.cfg "" true).2 ∧
      findClientInfo (onClientMessageReceived st session now ip
          (ClientMessage.request RequestKind.kServerSettings id sent received)).cfg
          "" = some ci ∧
      (onClientMessageReceived st session now ip
          (ClientMessage.request RequestKind.kServerSettings id sent received)).effects
        = [BinEffect.reply (ReplyMsg.serverSettings
            { refersTo := id, bufferMs := st.bufferMs,
              volume := ci.volume.percent, muted := ci.volume.muted,
              latency := ci.latency })] := by
  unfold onClientMessageReceived
  dsimp only
  rw [hmac]
  cases hfind : findClientInfo st.cfg "" with
  | some c =>
    rw [getClientInfo_found st.cfg "" true c hfind]
    dsimp only
    exact ⟨c, rfl, findClientInfo_mac st.cfg "" c hfind, rfl, hfind, rfl⟩
  | none =>
    rw [getClientInfo_true_none st.cfg "" hfind]
    dsimp only
    refine ⟨defaultClientInfo "", rfl, rfl, rfl, ?_, rfl⟩
    rw [findClientInfo_append st.cfg [defaultClientInfo ""] "" hfind]
    simp [findClientInfo, defaultClientInfo, List.find?]

/-- Witness for claim C10: against the concrete one-client store (which has no
record for the empty MAC) the record is created and populates the reply. -/
theorem claim_C10_emptyMac_witness :
    ∃ ci,
      (getClientInfo exState.cfg "" true).1 = some ci ∧
      ci.mac = "" ∧
      (onClientMessageReceived exState { macAddress := "", isActive := true }
          { sec := 100, usec := 0 } "192.168.0.2"
          (ClientMessage.request RequestKind.kServerSettings 9
            { sec := 100, usec := 0 } { sec := 101, usec := 0 })).cfg
        = (getClientInfo exState.cfg "" true).2 ∧
      findClientInfo (onClientMessageReceived exState
          { macAddress := "", isActive := true } { sec := 100, usec := 0 }
          "192.168.0.2"
          (ClientMessage.request RequestKind.kServerSettings 9
            { sec := 100, usec := 0 } { sec := 101, usec := 0 })).cfg
          "" = some ci ∧
      (onClientMessageReceived exState { macAddress := "", isActive := true }
          { sec := 100, usec := 0 } "192.168.0.2"
          (ClientMessage.request RequestKind.kServerSettings 9
            { sec := 100, usec := 0 } { sec := 101, usec := 0 })).effects
        = [BinEffect.reply (ReplyMsg.serverSettings
            { refersTo := 9, bufferMs := exState.bufferMs,
              volume := ci.volume.percent, muted := ci.volume.muted,
              latency := ci.latency })] :=
  claim_C10_emptyMac exState { macAddress := "", isActive := true }
    { sec := 100, usec := 0 } "192.168.0.2" 9 { sec := 100, usec := 0 }
    { sec := 101, usec := 0 } rfl

/-- Counterexample to claim C9 as stated: not every roster / ClientInfo
mutation of the coordinator happens under `mutex_`. The Hello handler, the
JSON-RPC Client.Set* handlers and the disconnect handler write ClientInfo
fields without acquiring the lock (streamServer.cpp lines 94-199, 256-273 and
83-91 contain no unique_lock). -/
theorem claim_C9_counterexample :
    ¬ (∀ tr ∈ coordinatorLockTraces, ∀ step ∈ tr,
        isMutationStep step.kind = true → step.locked = true) := by
  decide

/-- Claim C9 (amended): the roster mutations (session insert in handleAccept
and erase in send) and the ClientInfo creation done by the locked
Request{ServerSettings} branch happen under `mutex_`, but the ClientInfo field
updates performed by the Hello handler, the JSON-RPC Client.Set* handlers and
the disconnect handler are performed without holding `mutex_`. -/
theorem claim_C9_lockDiscipline :
    (∀ tr ∈ coordinatorLockTraces, ∀ step ∈ tr,
      isRosterStep step.kind = true → step.locked = true) ∧
    (∀ step ∈ serverSettingsRequestLockTrace, step.locked = true) ∧
    (∀ step ∈ helloLockTrace ++ setVolumeLockTrace ++ setMuteLockTrace
        ++ setLatencyLockTrace ++ setNameLockTrace ++ onDisconnectLockTrace,
      isClientInfoWriteStep step.kind = true → step.locked = false) := by
  refine ⟨?_, ?_, ?_⟩ <;> decide
